import Mathlib

/-!
# EstimateImageMatting (Primatte): input assembly and application shell

A shallow embedding of `src/Primatte/inputassembler.cpp` and
`src/Primatte/application.cpp`.

* `float` / `double` values are rationals (`ℚ`). A result stored in a `float` is
  rounded to binary32 by `fl32` (nearest, ties to even; overflow and NaN are
  left out) wherever the code scales or blends: the literals `1/255.f`,
  `1/65535.f`, `78/255.f`, ..., the products and sums on `cv::Vec3f`, and the
  conversion to `CV_32FC3`. The per-axis normalisation and its inverse
  (`/360`, `/100`, `+127`, `/254`, ...) are kept in exact arithmetic.
* A `cv::Mat` is its header (`rows`, `cols`, `type`) together with its pixels;
  `Mat.at?` is `cv::Mat::at<T>(i0, i1)` with the index check made explicit.
* C++ exceptions are values of `Exception`; a throwing function returns
  `Except Exception _`.
* The OpenCV colour conversion and the repository functions whose bodies are not
  part of the two files (`ProcessPoints`, the Primatte algorithm object) are
  parameters (`Collaborators`, `World`).
-/

namespace Primatte

/-! ## Rounding -/

/-- OpenCV `cvRound`: round to the nearest integer, ties to even. -/
def cvRound (q : ℚ) : ℤ :=
  let f := ⌊q⌋
  if q - f < 1 / 2 then f
  else if 1 / 2 < q - f then f + 1
  else if f % 2 = 0 then f else f + 1

/-- Floor of the binary logarithm of `n ≥ 1`, by halving at most `fuel` times. -/
def log2Floor : Nat → Nat → Nat
  | 0, _ => 0
  | fuel + 1, n => if n < 2 then 0 else log2Floor fuel (n / 2) + 1

/-- The binary exponent `e` of a nonzero rational: `2 ^ e ≤ |q| < 2 ^ (e + 1)`.
The difference of the logarithms of numerator and denominator is `e` or
`e + 1`; the comparison settles which. -/
def binade (q : ℚ) : ℤ :=
  let e0 : ℤ := (log2Floor q.num.natAbs q.num.natAbs : ℤ) - (log2Floor q.den q.den : ℤ)
  if |q| < 2 ^ e0 then e0 - 1 else e0

/-- Rounding to IEEE binary32, nearest with ties to even: 24 significant bits
above the smallest normal exponent `-126`, the fixed spacing `2 ^ (-149)` below. -/
def fl32 (q : ℚ) : ℚ :=
  if q = 0 then 0
  else
    let u : ℚ := 2 ^ (max (binade q) (-126) - 23)
    (cvRound (q / u) : ℚ) * u

/-! ## Values -/

/-- Three packed floats: `math::vec3`, `cv::Point3f`, `cv::Vec3f`, and (with
integral components) `cv::Vec3b`. -/
structure Vec3 where
  x : ℚ
  y : ℚ
  z : ℚ
deriving DecidableEq

/-- Product with a scalar, `v * s` on `cv::Vec3f`: each component a `float`
product. -/
def Vec3.scale (v : Vec3) (s : ℚ) : Vec3 := ⟨fl32 (v.x * s), fl32 (v.y * s), fl32 (v.z * s)⟩

/-- Component-wise sum, `v + w` on `cv::Vec3f`: each component a `float` sum. -/
def Vec3.add (v w : Vec3) : Vec3 := ⟨fl32 (v.x + w.x), fl32 (v.y + w.y), fl32 (v.z + w.z)⟩

/-- Component-wise image of a vector. -/
def Vec3.map (f : ℚ → ℚ) (v : Vec3) : Vec3 := ⟨f v.x, f v.y, f v.z⟩

/-! ## OpenCV element types -/

def CV_8U : Nat := 0
def CV_8S : Nat := 1
def CV_16U : Nat := 2
def CV_16S : Nat := 3
def CV_32S : Nat := 4
def CV_32F : Nat := 5
def CV_64F : Nat := 6

/-- The macro `CV_MAKETYPE(depth, cn)`: `depth + ((cn - 1) << 3)`. -/
def CV_MAKETYPE (depth cn : Nat) : Nat := depth + (cn - 1) * 8

/-- The macro `CV_MAT_DEPTH(type)`. -/
def CV_MAT_DEPTH (type : Nat) : Nat := type % 8

/-- The macro `CV_MAT_CN(type)`. -/
def CV_MAT_CN (type : Nat) : Nat := type / 8 + 1

def CV_8UC3 : Nat := CV_MAKETYPE CV_8U 3
def CV_16UC3 : Nat := CV_MAKETYPE CV_16U 3
def CV_32FC3 : Nat := CV_MAKETYPE CV_32F 3

/-- Clamp an integer into `[lo, hi]`. -/
def clampInt (lo hi v : ℤ) : ℤ := if v < lo then lo else if hi < v then hi else v

/-- OpenCV `cv::saturate_cast<T>` from a floating value, `T` given by its depth code:
integer depths round and clamp, `float` rounds to binary32, `double` keeps the
value. -/
def saturate_cast (depth : Nat) (v : ℚ) : ℚ :=
  if depth = CV_8U then (clampInt 0 255 (cvRound v) : ℤ)
  else if depth = CV_8S then (clampInt (-128) 127 (cvRound v) : ℤ)
  else if depth = CV_16U then (clampInt 0 65535 (cvRound v) : ℤ)
  else if depth = CV_16S then (clampInt (-32768) 32767 (cvRound v) : ℤ)
  else if depth = CV_32S then (clampInt (-2147483648) 2147483647 (cvRound v) : ℤ)
  else if depth = CV_32F then fl32 v
  else v

/-! ## Exceptions -/

/-- What a C++ call can throw: `std::runtime_error(what)`, or anything else
(here: the failed index check of `cv::Mat::at`). -/
inductive Exception where
  | runtime_error (what : String)
  | badIndex
deriving DecidableEq

/-! ## Matrices -/

/-- A `cv::Mat` of three-channel pixels. -/
structure Mat where
  rows : Nat
  cols : Nat
  type : Nat
  data : Nat → Nat → Vec3

/-- Read of `m.at<T>(i0, i1)`: row `i0`, column `i1`. -/
def Mat.at? (m : Mat) (i0 i1 : Nat) : Option Vec3 :=
  if i0 < m.rows ∧ i1 < m.cols then some (m.data i0 i1) else none

/-- The matrix with pixel `(i0, i1)` replaced by `v`. -/
def Mat.setAt (m : Mat) (i0 i1 : Nat) (v : Vec3) : Mat :=
  { m with data := fun i j => if i = i0 ∧ j = i1 then v else m.data i j }

/-- Read-modify-write through the reference `m.at<T>(i0, i1)`. -/
def Mat.modifyAt (m : Mat) (i0 i1 : Nat) (f : Vec3 → Vec3) : Except Exception Mat :=
  if i0 < m.rows ∧ i1 < m.cols then .ok (m.setAt i0 i1 (f (m.data i0 i1)))
  else .error .badIndex

/-- Body `f i0 i1` run on `m.at(i0, i1)` for each index pair of a loop nest, in
order; the first failing access ends the loop. -/
def forEachIndex (f : Nat → Nat → Vec3 → Vec3) : List (Nat × Nat) → Mat → Except Exception Mat
  | [], m => .ok m
  | (i0, i1) :: rest, m =>
    match m.modifyAt i0 i1 (f i0 i1) with
    | .ok m' => forEachIndex f rest m'
    | .error e => .error e

/-- OpenCV `m.convertTo(dst, rtype, alpha)`: only the depth of `rtype` is used, the
channel count is kept; every channel becomes `saturate_cast(v * alpha)`, the
product rounded once, by the cast (for the sources and scales of the
constructor the product is exact in `double`). -/
def Mat.convertTo (m : Mat) (rtype : Nat) (alpha : ℚ) : Mat :=
  { m with
    type := CV_MAKETYPE (CV_MAT_DEPTH rtype) (CV_MAT_CN m.type)
    data := fun i j => (m.data i j).map (fun v => saturate_cast (CV_MAT_DEPTH rtype) (v * alpha)) }

/-! ## Collaborators -/

/-- The colour conversion codes the two files pass to `cv::cvtColor`. -/
inductive ColorConversionCode where
  | CV_RGB2HSV
  | CV_HSV2RGB
  | CV_RGB2Lab
  | CV_Lab2RGB
deriving DecidableEq

/-- Sampling options (`InputAssemblerDescriptor::ipd`). -/
structure InputProcessingDescriptor where
  randomSimplify : Bool
  randomSimplifyPercentage : ℚ
  gridSize : Nat

/-- Functions called by the constructor whose bodies are outside the two files:
the per-pixel map of `cv::cvtColor` on a float matrix, and `ProcessPoints`. -/
structure Collaborators where
  cvtColor : ColorConversionCode → Vec3 → Vec3
  ProcessPoints : Mat → InputProcessingDescriptor → List Vec3

/-- OpenCV `cv::cvtColor(m, m, code)` on a `CV_32FC3` matrix: every pixel converted. -/
def cvtColorMat (lib : Collaborators) (code : ColorConversionCode) (m : Mat) : Mat :=
  { m with data := fun i j => lib.cvtColor code (m.data i j) }

/-! ## `inputassembler.cpp` -/

/-- The enum `InputAssemblerDescriptor::ETargetColourSpace`. -/
inductive ETargetColourSpace where
  | ETCS_RGB
  | ETCS_HSV
  | ETCS_LAB
deriving DecidableEq

open ETargetColourSpace ColorConversionCode

/-- The struct `InputAssemblerDescriptor`; `source` is a pointer, `none` is `nullptr`. -/
structure InputAssemblerDescriptor where
  source : Option Mat
  targetColourspace : ETargetColourSpace
  ipd : InputProcessingDescriptor
  backgroundPoint : Vec3

/-- The members of `InputAssembler`. -/
structure InputAssembler where
  mMatF : Mat
  mBackground : Vec3
  mColourSpace : ETargetColourSpace
  mPoints : List Vec3

/-- Function `InputAssembler::loadRgbMatFromFile`; `imread` answers `none` for a matrix
whose `data` is `nullptr`. -/
def loadRgbMatFromFile (imread : String → Option Mat) (path : String) : Except Exception Mat :=
  match imread path with
  | none => .error (.runtime_error "Could not load image data.")
  | some mat => .ok (mat.convertTo CV_8UC3 1)

/-- The `switch (desc.source->type())` of the constructor: the scale `alpha`
(the `float` quotients `1/255.f`, `1/65535.f` and the `float` `1.f`, widened to
`double` unchanged), or `none` for the `default:` branch. -/
def formatAlpha (type : Nat) : Option ℚ :=
  if type = CV_8UC3 then some (fl32 (1 / 255))
  else if type = CV_16UC3 then some (fl32 (1 / 65535))
  else if type = CV_32FC3 then some 1
  else none

/-- Index pairs `(x, y)` handed to `mMatF.at(x, y)` by
`for (y = 0; y < cols; ++y) for (x = 0; x < rows; ++x)`, in order. -/
def normaliseIndices (m : Mat) : List (Nat × Nat) :=
  (List.range m.cols).flatMap fun y => (List.range m.rows).map fun x => (x, y)

/-- Loop body of the HSV branch: `p.x /= 360.f`. -/
def normaliseHue (p : Vec3) : Vec3 := { p with x := p.x / 360 }

/-- Loop body of the Lab branch:
`Point3f(p.x/100.f, (p.y+127.f)/254.f, (p.z+127.f)/254.f)`. -/
def normaliseLab (p : Vec3) : Vec3 := ⟨p.x / 100, (p.y + 127) / 254, (p.z + 127) / 254⟩

/-- The message of the `default:` branch, `__LINE__` being 42. -/
def unknownFormatMessage : String :=
  "Unknown format in input assember at line " ++ toString 42

/-- Constructor `InputAssembler::InputAssembler(InputAssemblerDescriptor&)`. The background
pixel matrix aliases `mBackground`, so what is written through it is written to
`mBackground`. -/
def InputAssembler.new (lib : Collaborators) (desc : InputAssemblerDescriptor) :
    Except Exception InputAssembler :=
  match desc.source with
  | none => .error (.runtime_error "Null source mat")
  | some source =>
    match formatAlpha source.type with
    | none => .error (.runtime_error unknownFormatMessage)
    | some alpha =>
      let mMatF := source.convertTo CV_32FC3 alpha
      let mBackground := desc.backgroundPoint
      match desc.targetColourspace with
      | ETCS_RGB =>
        .ok ⟨mMatF, mBackground, ETCS_RGB, lib.ProcessPoints mMatF desc.ipd⟩
      | ETCS_HSV =>
        let mMatF := cvtColorMat lib CV_RGB2HSV mMatF
        let mBackground := lib.cvtColor CV_RGB2HSV mBackground
        match forEachIndex (fun _ _ => normaliseHue) (normaliseIndices mMatF) mMatF with
        | .error e => .error e
        | .ok mMatF =>
          let mBackground := normaliseHue mBackground
          .ok ⟨mMatF, mBackground, ETCS_HSV, lib.ProcessPoints mMatF desc.ipd⟩
      | ETCS_LAB =>
        let mMatF := cvtColorMat lib CV_RGB2Lab mMatF
        let mBackground := lib.cvtColor CV_RGB2Lab mBackground
        match forEachIndex (fun _ _ => normaliseLab) (normaliseIndices mMatF) mMatF with
        | .error e => .error e
        | .ok mMatF =>
          let mBackground := normaliseLab mBackground
          .ok ⟨mMatF, mBackground, ETCS_LAB, lib.ProcessPoints mMatF desc.ipd⟩

/-- The arithmetic `debugGetPointColour` applies to `p` before the library
conversion: hue `*= 360.f`; Lab `(p.x*100.f, p.y*254.f - 127.f, p.z*254.f - 127.f)`. -/
def denormalise (cs : ETargetColourSpace) (p : Vec3) : Vec3 :=
  match cs with
  | ETCS_RGB => p
  | ETCS_HSV => { p with x := p.x * 360 }
  | ETCS_LAB => ⟨p.x * 100, p.y * 254 - 127, p.z * 254 - 127⟩

/-- Function `InputAssembler::debugGetPointColour`; the one-pixel matrix aliases `p`. -/
def InputAssembler.debugGetPointColour (lib : Collaborators) (ia : InputAssembler)
    (p : Vec3) : Vec3 :=
  match ia.mColourSpace with
  | ETCS_RGB => denormalise ETCS_RGB p
  | ETCS_HSV => lib.cvtColor CV_HSV2RGB (denormalise ETCS_HSV p)
  | ETCS_LAB => lib.cvtColor CV_Lab2RGB (denormalise ETCS_LAB p)

/-- The per-axis arithmetic of the constructor by branch of
`switch(desc.targetColourspace)`: nothing, the hue loop body, the Lab loop body. -/
def normalise (cs : ETargetColourSpace) (p : Vec3) : Vec3 :=
  match cs with
  | ETCS_RGB => p
  | ETCS_HSV => normaliseHue p
  | ETCS_LAB => normaliseLab p

/-- What the constructor makes of one float RGB triple in the branch `cs`:
the library conversion of that branch, then `normalise`. -/
def workingPoint (lib : Collaborators) (cs : ETargetColourSpace) (rgb : Vec3) : Vec3 :=
  match cs with
  | ETCS_RGB => normalise ETCS_RGB rgb
  | ETCS_HSV => normalise ETCS_HSV (lib.cvtColor CV_RGB2HSV rgb)
  | ETCS_LAB => normalise ETCS_LAB (lib.cvtColor CV_RGB2Lab rgb)

/-- Every component of a vector satisfies `P`. -/
def Vec3.All (P : ℚ → Prop) (v : Vec3) : Prop := P v.x ∧ P v.y ∧ P v.z

/-! ## `application.cpp` -/

/-- What `computeAlphas` returns, read as `result.at<float>(r, c)`; the alpha map
has the dimensions of the source image. -/
abbrev AlphaMap := Nat → Nat → ℚ

/-- The member `AlgorithmPrimatteDesc::boundingPolyhedronDesc`, the fields `init` sets. -/
structure BoundingPolyhedronDesc where
  phiFaces : Nat
  thetaFaces : Nat
  scaleMultiplier : ℚ
  centre : Vec3

/-- The algorithm object as far as `init` builds it: its descriptor and the
input handed over by `setInput`. -/
structure AlgorithmPrimatte where
  boundingPolyhedronDesc : BoundingPolyhedronDesc
  input : Option InputAssembler

/-- Everything outside the two files that `init` and `draw` rely on. -/
structure World where
  imread : String → Option Mat
  lib : Collaborators
  analyse : AlgorithmPrimatte → Except Exception Unit
  computeAlphas : AlgorithmPrimatte → Except Exception AlphaMap

/-- Actions of `Application::init` visible from outside, in program order. -/
inductive Event where
  | Inform (msg : String)
  | restoreStateFromFile
  | setSceneRadius
  | loadRgbMatFromFile (path : String)
  | newInputAssembler
  | newAlgorithmPrimatte
  | setInput
  | analyse
  | computeAlphas
  | namedWindow (name : String)
  | imshow (name : String)
  | glDisable
  | timerStart
  | Error (msg : String)
  | close
deriving DecidableEq

/-- The class `Application`: its two members, the actions performed so far (oldest
first) and the content of the two display windows. -/
structure Application where
  mInputAssembler : Option InputAssembler
  mAlgorithm : Option AlgorithmPrimatte
  trace : List Event
  windowAlpha : Option AlphaMap
  windowAF : Option Mat

/-- Constructor `Application::Application()`: both members `nullptr`. -/
def Application.new : Application := ⟨none, none, [], none, none⟩

/-- Append actions to the trace. -/
def Application.log (app : Application) (evs : List Event) : Application :=
  { app with trace := app.trace ++ evs }

/-- The descriptor `iaDesc` filled in by `init` for the loaded image; the
background is `math::vec3(78/255.f, 94/255.f, 239/255.f)`, three `float`
quotients. -/
def iaDesc (imageMat : Mat) : InputAssemblerDescriptor :=
  { source := some imageMat
    targetColourspace := ETCS_LAB
    ipd := { randomSimplify := true, randomSimplifyPercentage := 50, gridSize := 100 }
    backgroundPoint := ⟨fl32 (78 / 255), fl32 (94 / 255), fl32 (239 / 255)⟩ }

/-- The local `cv::Vec3f backgroundBlendColour(0,255,0)`. -/
def backgroundBlendColour : Vec3 := ⟨0, 255, 0⟩

/-- The expression `originalf*alpha + backgroundBlendColour*(1.f-alpha)`, every
operation in `float`: the difference, the two products, the sum. -/
def compositeColour (originalf : Vec3) (alpha : ℚ) : Vec3 :=
  (originalf.scale alpha).add (backgroundBlendColour.scale (fl32 (1 - alpha)))

/-- Body of the compositing loop: `originalf` is the pixel widened to `float`
(exact), and `original = result` stores a `Vec3f` into a `Vec3b` (each channel
through `saturate_cast<uchar>`). -/
def compositePixel (result : AlphaMap) (r c : Nat) (original : Vec3) : Vec3 :=
  (compositeColour original (result r c)).map (saturate_cast CV_8U)

/-- Index pairs `(r, c)` of `for (r = 0; r < rows; ++r) for (c = 0; c < cols; ++c)`. -/
def compositeIndices (m : Mat) : List (Nat × Nat) :=
  (List.range m.rows).flatMap fun r => (List.range m.cols).map fun c => (r, c)

/-- The `try` block of `Application::init`: the state reached and the exception
that left the block, if any. -/
def Application.initBody (w : World) (app : Application) : Application × Option Exception :=
  let app := app.log [.Inform "Running", .restoreStateFromFile, .setSceneRadius,
    .Inform "Processing input", .loadRgbMatFromFile "test.bmp"]
  match loadRgbMatFromFile w.imread "test.bmp" with
  | .error e => (app, some e)
  | .ok imageMat =>
    let app := app.log [.newInputAssembler]
    match InputAssembler.new w.lib (iaDesc imageMat) with
    | .error e => (app, some e)
    | .ok ia =>
      let app := { app with mInputAssembler := some ia }
      let app := app.log [.Inform "Creating primatte algorithm", .newAlgorithmPrimatte]
      let algDesc : BoundingPolyhedronDesc :=
        { phiFaces := 16, thetaFaces := 8, scaleMultiplier := fl32 (11 / 10),
          centre := ia.mBackground }
      let app := { app with mAlgorithm := some ⟨algDesc, none⟩ }
      let app := app.log [.Inform "Analysing input", .setInput]
      let alg : AlgorithmPrimatte := ⟨algDesc, some ia⟩
      let app := { app with mAlgorithm := some alg }
      let app := app.log [.analyse]
      match w.analyse alg with
      | .error e => (app, some e)
      | .ok _ =>
        let app := app.log [.Inform "Applying results", .computeAlphas]
        match w.computeAlphas alg with
        | .error e => (app, some e)
        | .ok result =>
          let app := { app with windowAlpha := some result }
          let app := app.log [.namedWindow "Alpha", .imshow "Alpha"]
          match forEachIndex (compositePixel result) (compositeIndices imageMat) imageMat with
          | .error e => (app, some e)
          | .ok af =>
            let app := { app with windowAF := some af }
            (app.log [.namedWindow "AF", .imshow "AF", .glDisable, .timerStart], none)

/-- Function `Application::init`: the `try` block and its two handlers. -/
def Application.init (w : World) (app : Application) : Application :=
  match app.initBody w with
  | (app, none) => app
  | (app, some (.runtime_error what)) => app.log [.Error what, .close]
  | (app, some _) => app.log [.Error "Something happened", .close]

/-- Outcome of one call of `Application::draw`. -/
inductive DrawResult where
  | nullDereference
  | drawn (points : List (Vec3 × Vec3)) (backgroundPoint : Option Vec3) (algorithmDrawn : Bool)

/-- Function `Application::draw`: the point loop reads `mInputAssembler->points()` with no
test of the pointer; the background point and the algorithm are drawn under
`if(mInputAssembler)` and `if(mAlgorithm)`. Each drawn point is paired with the
colour from `debugGetPointColour`. -/
def Application.draw (lib : Collaborators) (app : Application) : DrawResult :=
  match app.mInputAssembler with
  | none => .nullDereference
  | some ia =>
    let points := ia.mPoints.map fun p => (ia.debugGetPointColour lib p, p)
    let backgroundPoint :=
      match app.mInputAssembler with
      | some ia => some ia.mBackground
      | none => none
    .drawn points backgroundPoint app.mAlgorithm.isSome

/-! ## Concrete inputs -/

/-- A stand-in for the library conversions that is a round trip in both pairs:
hue in degrees, `L` in `[0,100]`, chroma in `[-127,127]`, each an affine image of
the RGB axes. -/
def affineLib : Collaborators where
  cvtColor code p :=
    match code with
    | CV_RGB2HSV => ⟨p.x * 360, p.y, p.z⟩
    | CV_HSV2RGB => ⟨p.x / 360, p.y, p.z⟩
    | CV_RGB2Lab => ⟨p.x * 100, p.y * 254 - 127, p.z * 254 - 127⟩
    | CV_Lab2RGB => ⟨p.x / 100, (p.y + 127) / 254, (p.z + 127) / 254⟩
  ProcessPoints _ _ := []

/-- Sampling options as `init` sets them. -/
def sampleIpd : InputProcessingDescriptor := ⟨true, 50, 100⟩

/-- A one-pixel image of the given element type. -/
def onePixel (type : Nat) (p : Vec3) : Mat := ⟨1, 1, type, fun _ _ => p⟩

/-- A 2 x 3 (non-square) 8-bit image whose pixel `(r, c)` is `(r, c, 255)`. -/
def wideImage : Mat := ⟨2, 3, CV_8UC3, fun r c => ⟨r, c, 255⟩⟩

/-- A world in which `test.bmp` cannot be read. -/
def missingFileWorld : World where
  imread _ := none
  lib := affineLib
  analyse _ := .ok ()
  computeAlphas _ := .ok fun _ _ => 1

/-- A world in which `test.bmp` decodes to a single-channel image. -/
def greyFileWorld : World where
  imread _ := some (onePixel (CV_MAKETYPE CV_8U 1) ⟨7, 7, 7⟩)
  lib := affineLib
  analyse _ := .ok ()
  computeAlphas _ := .ok fun _ _ => 1

/-- A world in which `test.bmp` decodes to `wideImage`, the analysis succeeds
and the alpha map is `0.5f` everywhere. -/
def halfAlphaWorld : World where
  imread _ := some wideImage
  lib := affineLib
  analyse _ := .ok ()
  computeAlphas _ := .ok fun _ _ => 1 / 2

/-- The `InputAssembler` that `init` builds in `halfAlphaWorld`. -/
def halfAlphaAssembler : InputAssembler :=
  match InputAssembler.new affineLib (iaDesc (wideImage.convertTo CV_8UC3 1)) with
  | .ok ia => ia
  | .error _ => ⟨wideImage, ⟨0, 0, 0⟩, ETCS_LAB, []⟩

/-! ## Rounding to binary32 -/

theorem log2Floor_spec : ∀ (fuel n : ℕ), 1 ≤ n → n ≤ fuel →
    2 ^ log2Floor fuel n ≤ n ∧ n < 2 ^ (log2Floor fuel n + 1) := by
  intro fuel
  induction fuel with
  | zero => intro n h1 h2; omega
  | succ fuel ih =>
    intro n h1 h2
    unfold log2Floor
    by_cases hn : n < 2
    · rw [if_pos hn]
      constructor
      · simpa using h1
      · simpa using hn
    · rw [if_neg hn]
      obtain ⟨hlo, hhi⟩ := ih (n / 2) (by omega) (by omega)
      rw [pow_succ, pow_succ]
      constructor <;> omega

theorem binade_spec (q : ℚ) (hq : q ≠ 0) :
    (2 : ℚ) ^ binade q ≤ |q| ∧ |q| < (2 : ℚ) ^ (binade q + 1) := by
  have hn1 : 1 ≤ q.num.natAbs := Nat.one_le_iff_ne_zero.2 (by simpa using hq)
  have hd1 : 1 ≤ q.den := q.den_pos
  obtain ⟨ha, ha'⟩ := log2Floor_spec q.num.natAbs q.num.natAbs hn1 le_rfl
  obtain ⟨hb, hb'⟩ := log2Floor_spec q.den q.den hd1 le_rfl
  have habs : |q| = (q.num.natAbs : ℚ) / (q.den : ℚ) := by
    rw [Rat.abs_def, Rat.divInt_eq_div, Nat.cast_natAbs, Nat.cast_natAbs]
    push_cast
    rfl
  have hdpos : (0 : ℚ) < q.den := by exact_mod_cast q.den_pos
  have ha1 : ((2 : ℚ) ^ (log2Floor q.num.natAbs q.num.natAbs)) ≤ (q.num.natAbs : ℚ) := by
    exact_mod_cast ha
  have ha2 : (q.num.natAbs : ℚ) < (2 : ℚ) ^ (log2Floor q.num.natAbs q.num.natAbs + 1) := by
    exact_mod_cast ha'
  have hb1 : ((2 : ℚ) ^ (log2Floor q.den q.den)) ≤ (q.den : ℚ) := by exact_mod_cast hb
  have hb2 : (q.den : ℚ) < (2 : ℚ) ^ (log2Floor q.den q.den + 1) := by exact_mod_cast hb'
  set a := log2Floor q.num.natAbs q.num.natAbs
  set b := log2Floor q.den q.den
  have h2a : (0 : ℚ) < 2 ^ a := by positivity
  have h2b : (0 : ℚ) < 2 ^ b := by positivity
  have hup : |q| < (2 : ℚ) ^ ((a : ℤ) - (b : ℤ) + 1) := by
    rw [habs, div_lt_iff₀ hdpos]
    have : (2 : ℚ) ^ ((a : ℤ) - (b : ℤ) + 1) = 2 ^ (a + 1) / 2 ^ b := by
      rw [show (a : ℤ) - (b : ℤ) + 1 = ((a + 1 : ℕ) : ℤ) - (b : ℤ) by push_cast; ring]
      rw [zpow_sub₀ (by norm_num), zpow_natCast, zpow_natCast]
    rw [this, div_mul_eq_mul_div, lt_div_iff₀ h2b]
    calc (q.num.natAbs : ℚ) * 2 ^ b ≤ q.num.natAbs * q.den := by
          apply mul_le_mul_of_nonneg_left hb1; positivity
      _ < 2 ^ (a + 1) * q.den := by
          apply mul_lt_mul_of_pos_right ha2 hdpos
  have hlow : (2 : ℚ) ^ ((a : ℤ) - (b : ℤ) - 1) ≤ |q| := by
    rw [habs, le_div_iff₀ hdpos]
    have : (2 : ℚ) ^ ((a : ℤ) - (b : ℤ) - 1) = 2 ^ a / 2 ^ (b + 1) := by
      rw [show (a : ℤ) - (b : ℤ) - 1 = (a : ℤ) - ((b + 1 : ℕ) : ℤ) by push_cast; ring]
      rw [zpow_sub₀ (by norm_num), zpow_natCast, zpow_natCast]
    rw [this, div_mul_eq_mul_div, div_le_iff₀ (by positivity)]
    calc (2 : ℚ) ^ a * q.den ≤ q.num.natAbs * q.den := by
          apply mul_le_mul_of_nonneg_right ha1 hdpos.le
      _ ≤ q.num.natAbs * 2 ^ (b + 1) := by
          apply mul_le_mul_of_nonneg_left hb2.le; positivity
  unfold binade
  simp only []
  by_cases hc : |q| < (2 : ℚ) ^ ((a : ℤ) - (b : ℤ))
  · rw [if_pos hc]
    exact ⟨hlow, by simpa using hc⟩
  · rw [if_neg hc]
    exact ⟨not_lt.1 hc, hup⟩

theorem cvRound_intCast (k : ℤ) : cvRound (k : ℚ) = k := by
  have hf : ⌊(k : ℚ)⌋ = k := Int.floor_intCast k
  simp [cvRound, hf]

theorem cvRound_mono {x y : ℚ} (h : x ≤ y) : cvRound x ≤ cvRound y := by
  have hfg : ⌊x⌋ ≤ ⌊y⌋ := Int.floor_le_floor h
  have hx1 : (⌊x⌋ : ℚ) ≤ x := Int.floor_le x
  have hy2 : y < ⌊y⌋ + 1 := Int.lt_floor_add_one y
  unfold cvRound
  simp only []
  rcases hfg.lt_or_eq with hlt | heq
  · split_ifs <;> omega
  · rw [← heq] at hy2 ⊢
    split_ifs <;> first | omega | (exfalso; linarith)

theorem cvRound_le_of_le {x : ℚ} {k : ℤ} (h : x ≤ k) : cvRound x ≤ k := by
  have := cvRound_mono h
  rwa [cvRound_intCast] at this

theorem le_cvRound_of_le {x : ℚ} {k : ℤ} (h : (k : ℚ) ≤ x) : k ≤ cvRound x := by
  have := cvRound_mono h
  rwa [cvRound_intCast] at this

theorem fl32_eq (q : ℚ) (hq : q ≠ 0) :
    fl32 q = (cvRound (q / 2 ^ (max (binade q) (-126) - 23)) : ℚ) *
      2 ^ (max (binade q) (-126) - 23) := by
  simp [fl32, hq]

theorem fl32_zero : fl32 0 = 0 := by simp [fl32]

theorem fl32_nonneg {x : ℚ} (h : 0 ≤ x) : 0 ≤ fl32 x := by
  by_cases hx : x = 0
  · rw [hx, fl32_zero]
  · rw [fl32_eq x hx]
    have hu : (0 : ℚ) < 2 ^ (max (binade x) (-126) - 23) := by positivity
    have h0 : (0 : ℤ) ≤ cvRound (x / 2 ^ (max (binade x) (-126) - 23)) :=
      le_cvRound_of_le (by simpa using div_nonneg h hu.le)
    have : (0 : ℚ) ≤ (cvRound (x / 2 ^ (max (binade x) (-126) - 23)) : ℚ) := by exact_mod_cast h0
    positivity

theorem fl32_le_top {x : ℚ} (hx : 0 < x) :
    fl32 x ≤ 2 ^ (max (binade x) (-126) + 1) := by
  rw [fl32_eq x hx.ne']
  set E := max (binade x) (-126)
  have hu : (0 : ℚ) < 2 ^ (E - 23) := by positivity
  have hlt : x < 2 ^ (E + 1) := by
    have h1 := (binade_spec x hx.ne').2
    rw [abs_of_pos hx] at h1
    exact lt_of_lt_of_le h1 (zpow_le_zpow_right₀ (by norm_num) (by omega))
  have hsplit : (2 : ℚ) ^ (E + 1) = ((2 ^ 24 : ℤ) : ℚ) * 2 ^ (E - 23) := by
    rw [show E + 1 = 24 + (E - 23) by ring, zpow_add₀ (by norm_num)]
    norm_num
  have hdiv : x / 2 ^ (E - 23) ≤ ((2 ^ 24 : ℤ) : ℚ) := by
    rw [div_le_iff₀ hu, ← hsplit]
    exact hlt.le
  have hr : cvRound (x / 2 ^ (E - 23)) ≤ 2 ^ 24 := cvRound_le_of_le hdiv
  rw [hsplit]
  apply mul_le_mul_of_nonneg_right _ hu.le
  exact_mod_cast hr

theorem le_fl32_bottom {x : ℚ} (hx : 0 < x) (hb : -126 ≤ binade x) :
    2 ^ (binade x) ≤ fl32 x := by
  rw [fl32_eq x hx.ne', max_eq_left hb]
  set E := binade x
  have hu : (0 : ℚ) < 2 ^ (E - 23) := by positivity
  have hge : (2 : ℚ) ^ E ≤ x := by
    have h1 := (binade_spec x hx.ne').1
    rwa [abs_of_pos hx] at h1
  have hsplit : (2 : ℚ) ^ E = ((2 ^ 23 : ℤ) : ℚ) * 2 ^ (E - 23) := by
    rw [show E = 23 + (E - 23) by ring, zpow_add₀ (by norm_num)]
    norm_num
  have hdiv : ((2 ^ 23 : ℤ) : ℚ) ≤ x / 2 ^ (E - 23) := by
    rw [le_div_iff₀ hu, ← hsplit]
    exact hge
  have hr : 2 ^ 23 ≤ cvRound (x / 2 ^ (E - 23)) := le_cvRound_of_le hdiv
  rw [hsplit]
  apply mul_le_mul_of_nonneg_right _ hu.le
  exact_mod_cast hr

theorem fl32_mono {x y : ℚ} (h0 : 0 ≤ x) (h : x ≤ y) : fl32 x ≤ fl32 y := by
  rcases h0.lt_or_eq with hx | hx
  · have hy : 0 < y := lt_of_lt_of_le hx h
    rcases lt_trichotomy (max (binade x) (-126)) (max (binade y) (-126)) with hlt | heq | hgt
    · have hby : -126 ≤ binade y := by
        by_contra hc
        rw [max_eq_right (by omega : binade y ≤ -126)] at hlt
        have := le_max_right (binade x) (-126)
        omega
      have h1 := fl32_le_top hx
      have h2 := le_fl32_bottom hy hby
      have h3 : (2 : ℚ) ^ (max (binade x) (-126) + 1) ≤ 2 ^ binade y := by
        apply zpow_le_zpow_right₀ (by norm_num)
        rw [max_eq_left hby] at hlt
        omega
      linarith
    · rw [fl32_eq x hx.ne', fl32_eq y hy.ne', heq]
      have hu : (0 : ℚ) < 2 ^ (max (binade y) (-126) - 23) := by positivity
      apply mul_le_mul_of_nonneg_right _ hu.le
      have : cvRound (x / 2 ^ (max (binade y) (-126) - 23)) ≤
          cvRound (y / 2 ^ (max (binade y) (-126) - 23)) :=
        cvRound_mono (div_le_div_of_nonneg_right h hu.le)
      exact_mod_cast this
    · exfalso
      have hbx : -126 ≤ binade x := by
        by_contra hc
        rw [max_eq_right (by omega : binade x ≤ -126)] at hgt
        have := le_max_right (binade y) (-126)
        omega
      rw [max_eq_left hbx] at hgt
      have h1 := (binade_spec x hx.ne').1
      rw [abs_of_pos hx] at h1
      have h2 := (binade_spec y hy.ne').2
      rw [abs_of_pos hy] at h2
      have h3 : (2 : ℚ) ^ (binade y + 1) ≤ 2 ^ binade x := by
        apply zpow_le_zpow_right₀ (by norm_num)
        have := le_max_left (binade y) (-126)
        omega
      linarith
  · rw [← hx, fl32_zero]
    exact fl32_nonneg (hx ▸ h)

theorem fl32_natCast (n : ℕ) (hn : n < 2 ^ 24) : fl32 (n : ℚ) = n := by
  rcases Nat.eq_zero_or_pos n with h0 | hpos
  · rw [h0]; simp [fl32]
  · have hq : (0 : ℚ) < n := by exact_mod_cast hpos
    obtain ⟨h1, h2⟩ := binade_spec (n : ℚ) hq.ne'
    rw [abs_of_pos hq] at h1 h2
    have hb0 : 0 ≤ binade (n : ℚ) := by
      by_contra hc
      have : (2 : ℚ) ^ (binade (n : ℚ) + 1) ≤ 2 ^ (0 : ℤ) :=
        zpow_le_zpow_right₀ (by norm_num) (by omega)
      have h1n : (1 : ℚ) ≤ n := by exact_mod_cast hpos
      simp at this
      linarith
    have hb23 : binade (n : ℚ) ≤ 23 := by
      by_contra hc
      have : (2 : ℚ) ^ (24 : ℤ) ≤ 2 ^ binade (n : ℚ) :=
        zpow_le_zpow_right₀ (by norm_num) (by omega)
      have hn' : (n : ℚ) < 2 ^ (24 : ℤ) := by
        have : (n : ℚ) < ((2 ^ 24 : ℕ) : ℚ) := by exact_mod_cast hn
        norm_num at this ⊢
        exact this
      linarith
    rw [fl32_eq _ hq.ne', max_eq_left (by omega)]
    obtain ⟨k, hk⟩ : ∃ k : ℕ, binade (n : ℚ) - 23 = -(k : ℤ) :=
      ⟨(23 - binade (n : ℚ)).toNat, by omega⟩
    rw [hk, zpow_neg, zpow_natCast, div_inv_eq_mul]
    have hcast : (n : ℚ) * 2 ^ k = ((n * 2 ^ k : ℕ) : ℤ) := by push_cast; ring
    rw [hcast, cvRound_intCast]
    push_cast
    field_simp

/-! ## Loops over a matrix -/

theorem modifyAt_ok (m : Mat) (i0 i1 : Nat) (f : Vec3 → Vec3)
    (h : i0 < m.rows ∧ i1 < m.cols) :
    m.modifyAt i0 i1 f = .ok (m.setAt i0 i1 (f (m.data i0 i1))) := by
  simp [Mat.modifyAt, h]

/-- A loop nest whose index pairs are all inside the matrix and pairwise
distinct completes, keeps the header, applies the body once to every listed
pixel and leaves the others alone. -/
theorem forEachIndex_spec (f : Nat → Nat → Vec3 → Vec3) :
    ∀ (l : List (Nat × Nat)) (m : Mat),
      (∀ p ∈ l, p.1 < m.rows ∧ p.2 < m.cols) → l.Nodup →
      ∃ m', forEachIndex f l m = .ok m' ∧ m'.rows = m.rows ∧ m'.cols = m.cols ∧
        m'.type = m.type ∧
        ∀ i j, m'.data i j = if (i, j) ∈ l then f i j (m.data i j) else m.data i j := by
  intro l
  induction l with
  | nil => intro m _ _; exact ⟨m, rfl, rfl, rfl, rfl, by simp⟩
  | cons p rest ih =>
    intro m hb hnd
    obtain ⟨i0, i1⟩ := p
    have hin : i0 < m.rows ∧ i1 < m.cols := hb (i0, i1) (List.mem_cons_self _ _)
    rw [List.nodup_cons] at hnd
    obtain ⟨m', hm', hr, hc, ht, hd⟩ := ih (m.setAt i0 i1 (f i0 i1 (m.data i0 i1)))
      (fun q hq => hb q (List.mem_cons_of_mem _ hq)) hnd.2
    refine ⟨m', ?_, hr, hc, ht, ?_⟩
    · simp only [forEachIndex, modifyAt_ok m i0 i1 (f i0 i1) hin]
      exact hm'
    · intro i j
      rw [hd i j]
      by_cases hij : (i, j) = (i0, i1)
      · have h1 : i = i0 := congrArg Prod.fst hij
        have h2 : j = i1 := congrArg Prod.snd hij
        subst h1; subst h2
        simp [hnd.1, Mat.setAt]
      · have hne : ¬ (i = i0 ∧ j = i1) := fun h => hij (by rw [h.1, h.2])
        by_cases hmem : (i, j) ∈ rest
        · simp [hmem, hne, Mat.setAt]
        · simp [hmem, hne, hij, Mat.setAt]

theorem mem_normaliseIndices (m : Mat) (p : Nat × Nat) :
    p ∈ normaliseIndices m ↔ p.1 < m.rows ∧ p.2 < m.cols := by
  obtain ⟨x, y⟩ := p
  simp only [normaliseIndices, List.mem_flatMap, List.mem_range, List.mem_map, Prod.mk.injEq]
  constructor
  · rintro ⟨b, hb, a, ha, rfl, rfl⟩; exact ⟨ha, hb⟩
  · rintro ⟨hx, hy⟩; exact ⟨y, hy, x, hx, rfl, rfl⟩

theorem nodup_normaliseIndices (m : Mat) : (normaliseIndices m).Nodup := by
  unfold normaliseIndices
  rw [List.nodup_flatMap]
  refine ⟨fun y _ => ?_, ?_⟩
  · exact (List.nodup_range _).map (fun a b h => congrArg Prod.fst h)
  · refine (List.nodup_range m.cols).imp ?_
    intro a b hab
    simp only [Function.onFun, List.disjoint_left, List.mem_map, List.mem_range]
    rintro p ⟨x, _, rfl⟩ ⟨x', _, h⟩
    exact hab (congrArg Prod.snd h).symm

theorem mem_compositeIndices (m : Mat) (p : Nat × Nat) :
    p ∈ compositeIndices m ↔ p.1 < m.rows ∧ p.2 < m.cols := by
  obtain ⟨r, c⟩ := p
  simp only [compositeIndices, List.mem_flatMap, List.mem_range, List.mem_map, Prod.mk.injEq]
  constructor
  · rintro ⟨a, ha, b, hb, rfl, rfl⟩; exact ⟨ha, hb⟩
  · rintro ⟨hr, hc⟩; exact ⟨r, hr, c, hc, rfl, rfl⟩

theorem nodup_compositeIndices (m : Mat) : (compositeIndices m).Nodup := by
  unfold compositeIndices
  rw [List.nodup_flatMap]
  refine ⟨fun r _ => ?_, ?_⟩
  · exact (List.nodup_range _).map (fun a b h => congrArg Prod.snd h)
  · refine (List.nodup_range m.rows).imp ?_
    intro a b hab
    simp only [Function.onFun, List.disjoint_left, List.mem_map, List.mem_range]
    rintro p ⟨c, _, rfl⟩ ⟨c', _, h⟩
    exact hab (congrArg Prod.fst h).symm

/-! ## The constructor on a recognised source -/

theorem saturate_cast_float (v : ℚ) : saturate_cast (CV_MAT_DEPTH CV_32FC3) v = fl32 v := by
  simp [saturate_cast, CV_MAT_DEPTH, CV_32FC3, CV_MAKETYPE, CV_32F, CV_8U, CV_8S, CV_16U,
    CV_16S, CV_32S]

theorem convertTo_float_data (m : Mat) (alpha : ℚ) (i j : Nat) :
    (m.convertTo CV_32FC3 alpha).data i j = (m.data i j).scale alpha := by
  simp [Mat.convertTo, Vec3.map, Vec3.scale, saturate_cast_float]

theorem formatAlpha_eq_some (type : Nat) (alpha : ℚ) (h : formatAlpha type = some alpha) :
    (type = CV_8UC3 ∧ alpha = fl32 (1 / 255)) ∨ (type = CV_16UC3 ∧ alpha = fl32 (1 / 65535)) ∨
      (type = CV_32FC3 ∧ alpha = 1) := by
  unfold formatAlpha at h
  split_ifs at h with h1 h2 h3
  · exact Or.inl ⟨h1, (Option.some.inj h).symm⟩
  · exact Or.inr (Or.inl ⟨h2, (Option.some.inj h).symm⟩)
  · exact Or.inr (Or.inr ⟨h3, (Option.some.inj h).symm⟩)

theorem formatAlpha_eq_none (type : Nat) :
    formatAlpha type = none ↔ type ≠ CV_8UC3 ∧ type ≠ CV_16UC3 ∧ type ≠ CV_32FC3 := by
  unfold formatAlpha
  split_ifs with h1 h2 h3 <;> simp [*]

/-- The normalisation loop of the constructor completes on every matrix. -/
theorem normaliseLoop_spec (f : Vec3 → Vec3) (m : Mat) :
    ∃ m', forEachIndex (fun _ _ => f) (normaliseIndices m) m = .ok m' ∧
      m'.rows = m.rows ∧ m'.cols = m.cols ∧ m'.type = m.type ∧
      ∀ i j, m'.data i j = if i < m.rows ∧ j < m.cols then f (m.data i j) else m.data i j := by
  obtain ⟨m', h, hr, hc, ht, hd⟩ := forEachIndex_spec (fun _ _ => f) (normaliseIndices m) m
    (fun p hp => (mem_normaliseIndices m p).1 hp) (nodup_normaliseIndices m)
  refine ⟨m', h, hr, hc, ht, fun i j => ?_⟩
  rw [hd i j]
  simp only [mem_normaliseIndices]

/-- On a non-null source of a recognised element type the constructor returns,
and every member of the object is determined. -/
theorem InputAssembler_new_spec (lib : Collaborators) (desc : InputAssemblerDescriptor)
    (source : Mat) (alpha : ℚ) (hs : desc.source = some source)
    (ha : formatAlpha source.type = some alpha) :
    ∃ ia, InputAssembler.new lib desc = .ok ia ∧
      ia.mColourSpace = desc.targetColourspace ∧
      ia.mMatF.rows = source.rows ∧ ia.mMatF.cols = source.cols ∧
      (∀ i j, i < source.rows → j < source.cols →
        ia.mMatF.data i j =
          workingPoint lib desc.targetColourspace ((source.data i j).scale alpha)) ∧
      ia.mBackground = workingPoint lib desc.targetColourspace desc.backgroundPoint ∧
      ia.mPoints = lib.ProcessPoints ia.mMatF desc.ipd := by
  unfold InputAssembler.new
  rw [hs]
  simp only [ha]
  cases hcs : desc.targetColourspace with
  | ETCS_RGB =>
    refine ⟨_, rfl, rfl, rfl, rfl, fun i j _ _ => ?_, rfl, rfl⟩
    simp [workingPoint, normalise, convertTo_float_data]
  | ETCS_HSV =>
    obtain ⟨m', h, hr, hc, _, hd⟩ := normaliseLoop_spec normaliseHue
      (cvtColorMat lib CV_RGB2HSV (source.convertTo CV_32FC3 alpha))
    simp only [h]
    refine ⟨_, rfl, rfl, hr, hc, fun i j hi hj => ?_, rfl, rfl⟩
    have hin : i < (cvtColorMat lib CV_RGB2HSV (source.convertTo CV_32FC3 alpha)).rows ∧
        j < (cvtColorMat lib CV_RGB2HSV (source.convertTo CV_32FC3 alpha)).cols := ⟨hi, hj⟩
    simp only [hd i j, hin, and_self, if_true]
    simp [workingPoint, normalise, cvtColorMat, convertTo_float_data]
  | ETCS_LAB =>
    obtain ⟨m', h, hr, hc, _, hd⟩ := normaliseLoop_spec normaliseLab
      (cvtColorMat lib CV_RGB2Lab (source.convertTo CV_32FC3 alpha))
    simp only [h]
    refine ⟨_, rfl, rfl, hr, hc, fun i j hi hj => ?_, rfl, rfl⟩
    have hin : i < (cvtColorMat lib CV_RGB2Lab (source.convertTo CV_32FC3 alpha)).rows ∧
        j < (cvtColorMat lib CV_RGB2Lab (source.convertTo CV_32FC3 alpha)).cols := ⟨hi, hj⟩
    simp only [hd i j, hin, and_self, if_true]
    simp [workingPoint, normalise, cvtColorMat, convertTo_float_data]

/-- The only ways the constructor throws. -/
theorem InputAssembler_new_error (lib : Collaborators) (desc : InputAssemblerDescriptor)
    (e : Exception) (h : InputAssembler.new lib desc = .error e) :
    (desc.source = none ∧ e = .runtime_error "Null source mat") ∨
      (∃ s, desc.source = some s ∧ formatAlpha s.type = none ∧
        e = .runtime_error unknownFormatMessage) := by
  cases hs : desc.source with
  | none =>
    left
    simp only [InputAssembler.new, hs] at h
    exact ⟨rfl, (Except.error.inj h).symm⟩
  | some s =>
    right
    cases ha : formatAlpha s.type with
    | none =>
      simp only [InputAssembler.new, hs, ha] at h
      exact ⟨s, rfl, ha, (Except.error.inj h).symm⟩
    | some alpha =>
      obtain ⟨ia, hia, _⟩ := InputAssembler_new_spec lib desc s alpha hs ha
      rw [hia] at h
      cases h

/-! ## Rounding and blending -/

theorem cvRound_natCast (n : ℕ) : cvRound (n : ℚ) = n := by
  have hf : ⌊(n : ℚ)⌋ = (n : ℤ) := Int.floor_natCast n
  simp [cvRound, hf]

theorem saturate_cast_uchar_natCast (n : ℕ) (h : n ≤ 255) :
    saturate_cast CV_8U (n : ℚ) = n := by
  have h1 : ¬ ((n : ℤ) < 0) := by omega
  have h2 : ¬ ((255 : ℤ) < (n : ℤ)) := by omega
  simp [saturate_cast, cvRound_natCast, clampInt, h1, h2]

theorem saturate_cast_uchar_range (v : ℚ) :
    0 ≤ saturate_cast CV_8U v ∧ saturate_cast CV_8U v ≤ 255 := by
  have h : saturate_cast CV_8U v = (clampInt 0 255 (cvRound v) : ℤ) := by
    simp [saturate_cast]
  have hc : 0 ≤ clampInt 0 255 (cvRound v) ∧ clampInt 0 255 (cvRound v) ≤ 255 := by
    unfold clampInt
    split_ifs <;> omega
  rw [h]
  exact ⟨by exact_mod_cast hc.1, by exact_mod_cast hc.2⟩

/-- On success of every stage, `init` shows the alpha map in window "Alpha"
and, in window "AF", the loaded image with every pixel replaced by the body of
the compositing loop. -/
theorem init_shows_composite (w : World) (app : Application) (imageMat : Mat)
    (ia : InputAssembler) (result : AlphaMap)
    (hl : loadRgbMatFromFile w.imread "test.bmp" = .ok imageMat)
    (hn : InputAssembler.new w.lib (iaDesc imageMat) = .ok ia)
    (han : w.analyse ⟨⟨16, 8, fl32 (11 / 10), ia.mBackground⟩, some ia⟩ = .ok ())
    (hca : w.computeAlphas ⟨⟨16, 8, fl32 (11 / 10), ia.mBackground⟩, some ia⟩ = .ok result) :
    (app.init w).windowAlpha = some result ∧
    ∃ af, (app.init w).windowAF = some af ∧
      af.rows = imageMat.rows ∧ af.cols = imageMat.cols ∧
      ∀ r c, af.at? r c = (imageMat.at? r c).map (compositePixel result r c) := by
  obtain ⟨af, h, hr, hc, _, hd⟩ := forEachIndex_spec (compositePixel result)
    (compositeIndices imageMat) imageMat
    (fun p hp => (mem_compositeIndices imageMat p).1 hp) (nodup_compositeIndices imageMat)
  have e1 : (app.init w).windowAlpha = some result := by
    simp [Application.init, Application.initBody, hl, hn, han, hca, h, Application.log]
  have e2 : (app.init w).windowAF = some af := by
    simp [Application.init, Application.initBody, hl, hn, han, hca, h, Application.log]
  refine ⟨e1, af, e2, hr, hc, fun r c => ?_⟩
  unfold Mat.at?
  rw [hr, hc, hd r c]
  by_cases hin : r < imageMat.rows ∧ c < imageMat.cols
  · simp [hin, mem_compositeIndices]
  · simp [hin]

/-! ## Claims -/

/-- C1: construction of an `InputAssembler` (the library conversion and
`ProcessPoints` being functions that return) throws exactly when the source
pointer is null or the source element type is none of `CV_8UC3`, `CV_16UC3`,
`CV_32FC3`; what is thrown is then the `runtime_error` of the null test or of the
`default:` branch; and for each of the three recognised types, whatever the
target colour space, the format switch yields a scale and the constructor
returns an object in that colour space. -/
theorem C1_construction_fails_iff_null_or_unrecognised (lib : Collaborators)
    (desc : InputAssemblerDescriptor) :
    ((∃ e, InputAssembler.new lib desc = .error e) ↔
      (desc.source = none ∨ ∃ s, desc.source = some s ∧
        s.type ≠ CV_8UC3 ∧ s.type ≠ CV_16UC3 ∧ s.type ≠ CV_32FC3)) ∧
    (∀ e, InputAssembler.new lib desc = .error e →
      e = .runtime_error "Null source mat" ∨
        e = .runtime_error "Unknown format in input assember at line 42") ∧
    (∀ s, desc.source = some s →
      (s.type = CV_8UC3 ∨ s.type = CV_16UC3 ∨ s.type = CV_32FC3) →
      (formatAlpha s.type).isSome = true ∧
        ∃ ia, InputAssembler.new lib desc = .ok ia ∧
          ia.mColourSpace = desc.targetColourspace) := by
  refine ⟨⟨?_, ?_⟩, ?_, ?_⟩
  · rintro ⟨e, he⟩
    rcases InputAssembler_new_error lib desc e he with ⟨hn, _⟩ | ⟨s, hs, ha, _⟩
    · exact Or.inl hn
    · exact Or.inr ⟨s, hs, (formatAlpha_eq_none s.type).1 ha⟩
  · rintro (hn | ⟨s, hs, ht⟩)
    · exact ⟨.runtime_error "Null source mat", by simp only [InputAssembler.new, hn]⟩
    · have ha := (formatAlpha_eq_none s.type).2 ht
      exact ⟨.runtime_error unknownFormatMessage, by simp only [InputAssembler.new, hs, ha]⟩
  · intro e he
    rcases InputAssembler_new_error lib desc e he with ⟨_, h⟩ | ⟨s, _, _, h⟩
    · exact Or.inl h
    · right
      rw [h]
      decide
  · intro s hs ht
    have hsome : ∃ alpha, formatAlpha s.type = some alpha := by
      rcases ht with h | h | h <;> rw [h]
      · exact ⟨fl32 (1 / 255), rfl⟩
      · exact ⟨fl32 (1 / 65535), rfl⟩
      · exact ⟨1, rfl⟩
    obtain ⟨alpha, ha⟩ := hsome
    obtain ⟨ia, hia, hcs, _⟩ := InputAssembler_new_spec lib desc s alpha hs ha
    exact ⟨by simp [ha], ia, hia, hcs⟩

/-- C1 at concrete inputs: what a null source throws is one of the two
messages, a single-channel source is rejected, an 8-bit three-channel source is
accepted in the HSV working space. -/
theorem C1_construction_fails_iff_null_or_unrecognised_witness :
    (Exception.runtime_error "Null source mat" = .runtime_error "Null source mat" ∨
      Exception.runtime_error "Null source mat" =
        .runtime_error "Unknown format in input assember at line 42") ∧
    (∃ e, InputAssembler.new affineLib
      ⟨some (onePixel (CV_MAKETYPE CV_8U 1) ⟨7, 7, 7⟩), ETCS_RGB, sampleIpd, ⟨0, 0, 0⟩⟩ =
        .error e) ∧
    ((formatAlpha wideImage.type).isSome = true ∧
      ∃ ia, InputAssembler.new affineLib ⟨some wideImage, ETCS_HSV, sampleIpd, ⟨0, 0, 0⟩⟩ =
        .ok ia ∧ ia.mColourSpace = ETCS_HSV) :=
  ⟨(C1_construction_fails_iff_null_or_unrecognised affineLib
      ⟨none, ETCS_LAB, sampleIpd, ⟨0, 0, 0⟩⟩).2.1 (.runtime_error "Null source mat") rfl,
    (C1_construction_fails_iff_null_or_unrecognised affineLib
      ⟨some (onePixel (CV_MAKETYPE CV_8U 1) ⟨7, 7, 7⟩), ETCS_RGB, sampleIpd, ⟨0, 0, 0⟩⟩).1.2
      (Or.inr ⟨_, rfl, by decide, by decide, by decide⟩),
    (C1_construction_fails_iff_null_or_unrecognised affineLib
      ⟨some wideImage, ETCS_HSV, sampleIpd, ⟨0, 0, 0⟩⟩).2.2 wideImage rfl (Or.inl rfl)⟩

/-- C2 as stated fails: an 8-bit one-pixel image holding `(255, 255, 255)` and
the background `(255, 255, 255)`, in the RGB working space. The pixel is stored
as `(1, 1, 1)`, the background as `(255, 255, 255)`. -/
theorem C2_same_source_value_counterexample :
    ¬ ∀ (lib : Collaborators) (desc : InputAssemblerDescriptor) (source : Mat)
        (ia : InputAssembler) (i j : Nat),
        desc.source = some source →
        (source.type = CV_8UC3 ∨ source.type = CV_16UC3 ∨ source.type = CV_32FC3) →
        InputAssembler.new lib desc = .ok ia →
        source.at? i j = some desc.backgroundPoint →
        ia.mMatF.at? i j = some ia.mBackground := by
  intro h
  have h1 := h affineLib
    ⟨some (onePixel CV_8UC3 ⟨255, 255, 255⟩), ETCS_RGB, sampleIpd, ⟨255, 255, 255⟩⟩
    (onePixel CV_8UC3 ⟨255, 255, 255⟩)
    ⟨(onePixel CV_8UC3 ⟨255, 255, 255⟩).convertTo CV_32FC3 (fl32 (1 / 255)), ⟨255, 255, 255⟩,
      ETCS_RGB, []⟩
    0 0 rfl (Or.inl rfl) rfl rfl
  have hone : fl32 (255 * fl32 (1 / 255)) = 1 := by decide!
  have h2 : (⟨(onePixel CV_8UC3 ⟨255, 255, 255⟩).convertTo CV_32FC3 (fl32 (1 / 255)),
      ⟨255, 255, 255⟩, ETCS_RGB, []⟩ : InputAssembler).mMatF.at? 0 0 = some ⟨1, 1, 1⟩ := by
    simp only [Mat.at?, Mat.convertTo, onePixel, Vec3.map, saturate_cast_float, hone]
    simp
  rw [h2] at h1
  have h3 := congrArg Vec3.x (Option.some.inj h1)
  norm_num at h3

/-- C2 (amended): the background point is taken as a float RGB triple already
on the scale of the converted image: it gets the colour conversion and the
per-axis normalisation of the pixels but not the scale `alpha` of the source
encoding (the floats `1/255.f`, `1/65535.f`, `1.f`). So, for every recognised
source encoding and every working colour space, the constructor returns and
the stored background equals the stored value of any image pixel whose source
value times `alpha`, as a `float` product, is the supplied background; in the
float encoding that is any pixel holding the supplied background itself. -/
theorem C2_background_in_working_space_of_scaled_pixel (lib : Collaborators)
    (desc : InputAssemblerDescriptor) (source : Mat) (alpha : ℚ) (i j : Nat) (p : Vec3)
    (hs : desc.source = some source) (ha : formatAlpha source.type = some alpha)
    (hp : source.at? i j = some p) (hbg : p.scale alpha = desc.backgroundPoint) :
    ((source.type = CV_8UC3 ∧ alpha = fl32 (1 / 255)) ∨
      (source.type = CV_16UC3 ∧ alpha = fl32 (1 / 65535)) ∨
      (source.type = CV_32FC3 ∧ alpha = 1 ∧ (p.map fl32 = p → p = desc.backgroundPoint))) ∧
    ∃ ia, InputAssembler.new lib desc = .ok ia ∧
      ia.mMatF.at? i j = some ia.mBackground ∧
      ia.mBackground = workingPoint lib desc.targetColourspace desc.backgroundPoint := by
  have hin : i < source.rows ∧ j < source.cols := by
    unfold Mat.at? at hp
    by_contra hc
    rw [if_neg hc] at hp
    cases hp
  have hpd : source.data i j = p := by
    unfold Mat.at? at hp
    rw [if_pos hin] at hp
    exact Option.some.inj hp
  constructor
  · rcases formatAlpha_eq_some _ _ ha with h | h | ⟨h1, h2⟩
    · exact Or.inl h
    · exact Or.inr (Or.inl h)
    · refine Or.inr (Or.inr ⟨h1, h2, fun hfl => ?_⟩)
      rw [← hbg, h2]
      simpa [Vec3.scale, Vec3.map] using hfl.symm
  · obtain ⟨ia, hia, _, hr, hc, hd, hb, _⟩ := InputAssembler_new_spec lib desc source alpha hs ha
    refine ⟨ia, hia, ?_, hb⟩
    unfold Mat.at?
    rw [hr, hc, if_pos hin, hd i j hin.1 hin.2, hpd, hbg, hb]

/-- The amended C2 at a concrete input: an 8-bit pixel `(78, 94, 239)` and, as
background, the three `float` products of its channels with `1/255.f`, in the
Lab working space. -/
theorem C2_background_in_working_space_of_scaled_pixel_witness :
    ((CV_8UC3 = CV_8UC3 ∧ fl32 (1 / 255) = fl32 (1 / 255)) ∨
      (CV_8UC3 = CV_16UC3 ∧ fl32 (1 / 255) = fl32 (1 / 65535)) ∨
      (CV_8UC3 = CV_32FC3 ∧ fl32 (1 / 255) = 1 ∧
        ((⟨78, 94, 239⟩ : Vec3).map fl32 = ⟨78, 94, 239⟩ →
          (⟨78, 94, 239⟩ : Vec3) = (⟨78, 94, 239⟩ : Vec3).scale (fl32 (1 / 255))))) ∧
    ∃ ia, InputAssembler.new affineLib
        ⟨some (onePixel CV_8UC3 ⟨78, 94, 239⟩), ETCS_LAB, sampleIpd,
          (⟨78, 94, 239⟩ : Vec3).scale (fl32 (1 / 255))⟩ = .ok ia ∧
      ia.mMatF.at? 0 0 = some ia.mBackground ∧
      ia.mBackground =
        workingPoint affineLib ETCS_LAB ((⟨78, 94, 239⟩ : Vec3).scale (fl32 (1 / 255))) :=
  C2_background_in_working_space_of_scaled_pixel affineLib
    ⟨some (onePixel CV_8UC3 ⟨78, 94, 239⟩), ETCS_LAB, sampleIpd,
      (⟨78, 94, 239⟩ : Vec3).scale (fl32 (1 / 255))⟩
    (onePixel CV_8UC3 ⟨78, 94, 239⟩) (fl32 (1 / 255)) 0 0 ⟨78, 94, 239⟩ rfl rfl rfl rfl

/-- C3: in every working colour space the arithmetic of `debugGetPointColour`
undoes the per-axis normalisation of the constructor on every triple
(`denormalise cs (normalise cs c) = c`, boundary values included); hence, when
the library's HSV and Lab conversion pairs are round trips,
`debugGetPointColour` maps every stored pixel back to the float RGB pixel it
came from (source value times `alpha`) and the stored background back to the
supplied background. -/
theorem C3_debugGetPointColour_inverts_constructor (lib : Collaborators)
    (desc : InputAssemblerDescriptor) (source : Mat) (alpha : ℚ)
    (hHSV : ∀ p, lib.cvtColor CV_HSV2RGB (lib.cvtColor CV_RGB2HSV p) = p)
    (hLab : ∀ p, lib.cvtColor CV_Lab2RGB (lib.cvtColor CV_RGB2Lab p) = p)
    (hs : desc.source = some source) (ha : formatAlpha source.type = some alpha) :
    (∀ cs c, denormalise cs (normalise cs c) = c) ∧
    ∃ ia, InputAssembler.new lib desc = .ok ia ∧
      (∀ i j, i < source.rows → j < source.cols →
        ia.debugGetPointColour lib (ia.mMatF.data i j) = (source.data i j).scale alpha) ∧
      ia.debugGetPointColour lib ia.mBackground = desc.backgroundPoint := by
  have hden : ∀ cs c, denormalise cs (normalise cs c) = c := by
    intro cs c
    cases cs
    · rfl
    · simp [denormalise, normalise, normaliseHue]
    · obtain ⟨x, y, z⟩ := c
      simp only [denormalise, normalise, normaliseLab, Vec3.mk.injEq]
      refine ⟨?_, ?_, ?_⟩ <;> ring
  have hback : ∀ (cs : ETargetColourSpace) (ia : InputAssembler) (rgb : Vec3),
      ia.mColourSpace = cs → ia.debugGetPointColour lib (workingPoint lib cs rgb) = rgb := by
    intro cs ia rgb hcs
    unfold InputAssembler.debugGetPointColour workingPoint
    rw [hcs]
    cases cs
    · exact hden ETCS_RGB rgb
    · simp only [hden, hHSV]
    · simp only [hden, hLab]
  obtain ⟨ia, hia, hcs, _, _, hd, hb, _⟩ := InputAssembler_new_spec lib desc source alpha hs ha
  refine ⟨hden, ia, hia, fun i j hi hj => ?_, ?_⟩
  · rw [hd i j hi hj]
    exact hback _ ia _ hcs
  · rw [hb]
    exact hback _ ia _ hcs

/-- C3 at a concrete input: a 16-bit pixel `(0, 65535, 13107)` (channels at the
lower end, the upper end and inside the range), the Lab working space and the
affine stand-in conversions. -/
theorem C3_debugGetPointColour_inverts_constructor_witness :
    (∀ cs c, denormalise cs (normalise cs c) = c) ∧
    ∃ ia, InputAssembler.new affineLib
        ⟨some (onePixel CV_16UC3 ⟨0, 65535, 13107⟩), ETCS_LAB, sampleIpd, ⟨0, 1, 1 / 5⟩⟩ = .ok ia ∧
      (∀ i j, i < 1 → j < 1 →
        ia.debugGetPointColour affineLib (ia.mMatF.data i j) =
          (⟨0, 65535, 13107⟩ : Vec3).scale (fl32 (1 / 65535))) ∧
      ia.debugGetPointColour affineLib ia.mBackground = ⟨0, 1, 1 / 5⟩ :=
  C3_debugGetPointColour_inverts_constructor affineLib
    ⟨some (onePixel CV_16UC3 ⟨0, 65535, 13107⟩), ETCS_LAB, sampleIpd, ⟨0, 1, 1 / 5⟩⟩
    (onePixel CV_16UC3 ⟨0, 65535, 13107⟩) (fl32 (1 / 65535))
    (fun p => by simp [affineLib])
    (fun p => by
      obtain ⟨x, y, z⟩ := p
      simp only [affineLib, Vec3.mk.injEq]
      refine ⟨?_, ?_, ?_⟩ <;> ring)
    rfl rfl

/-- C6 as stated fails: an 8-bit one-pixel image holding `(239, 239, 239)` in
the RGB working space. The stored channel is the `float` product
`239 * (1/255.f) = 15724529/16777216`, which is not `239/255` and not the
`float` nearest to `239/255` either (that is `15724528/16777216`). -/
theorem C6_stored_channel_counterexample :
    (¬ ∀ (lib : Collaborators) (desc : InputAssemblerDescriptor) (source : Mat)
        (ia : InputAssembler) (i j : Nat),
        desc.source = some source → source.type = CV_8UC3 →
        desc.targetColourspace = ETCS_RGB →
        InputAssembler.new lib desc = .ok ia → i < source.rows → j < source.cols →
        ia.mMatF.at? i j = some ((source.data i j).map fun v => v / 255)) ∧
    fl32 (239 * fl32 (1 / 255)) = 15724529 / 16777216 ∧
    fl32 (239 / 255) = 15724528 / 16777216 := by
  have hval : fl32 (239 * fl32 (1 / 255)) = 15724529 / 16777216 := by decide!
  refine ⟨fun h => ?_, hval, by decide!⟩
  have h1 := h affineLib
    ⟨some (onePixel CV_8UC3 ⟨239, 239, 239⟩), ETCS_RGB, sampleIpd, ⟨0, 0, 0⟩⟩
    (onePixel CV_8UC3 ⟨239, 239, 239⟩)
    ⟨(onePixel CV_8UC3 ⟨239, 239, 239⟩).convertTo CV_32FC3 (fl32 (1 / 255)), ⟨0, 0, 0⟩,
      ETCS_RGB, []⟩
    0 0 rfl rfl rfl rfl (by decide) (by decide)
  have h2 : (⟨(onePixel CV_8UC3 ⟨239, 239, 239⟩).convertTo CV_32FC3 (fl32 (1 / 255)),
      ⟨0, 0, 0⟩, ETCS_RGB, []⟩ : InputAssembler).mMatF.at? 0 0 =
      some ⟨15724529 / 16777216, 15724529 / 16777216, 15724529 / 16777216⟩ := by
    simp only [Mat.at?, Mat.convertTo, onePixel, Vec3.map, saturate_cast_float, hval]
    simp
  rw [h2] at h1
  have h3 := congrArg Vec3.x (Option.some.inj h1)
  norm_num [onePixel, Vec3.map] at h3

/-- C6 (amended): in the RGB working space the constructor returns, leaves
the background point as supplied and stores every channel `v` of every pixel
as the `float` product `v * alpha` with nothing else applied, `alpha` being the
`float` `1/255.f` for an 8-bit source, `1/65535.f` for a 16-bit source and `1.f`
for a float source (whose `float` channels are therefore stored unchanged). A
channel in `[0, max]` of an integer encoding is stored in `[0,1]`, `0` as `0`
and `max` as exactly `1`. -/
theorem C6_rgb_float_scaled (lib : Collaborators) (desc : InputAssemblerDescriptor)
    (source : Mat) (alpha : ℚ) (hs : desc.source = some source)
    (ha : formatAlpha source.type = some alpha) (hcs : desc.targetColourspace = ETCS_RGB) :
    ∃ ia, InputAssembler.new lib desc = .ok ia ∧
      ia.mBackground = desc.backgroundPoint ∧
      ∃ top : ℚ,
        ((source.type = CV_8UC3 ∧ top = 255 ∧ alpha = fl32 (1 / 255)) ∨
          (source.type = CV_16UC3 ∧ top = 65535 ∧ alpha = fl32 (1 / 65535)) ∨
          (source.type = CV_32FC3 ∧ top = 1 ∧ alpha = 1)) ∧
        (∀ i j, i < source.rows → j < source.cols →
          ia.mMatF.at? i j = some ((source.data i j).map fun v => fl32 (v * alpha))) ∧
        (∀ v : ℚ, 0 ≤ v ∧ v ≤ top → 0 ≤ fl32 (v * alpha) ∧ fl32 (v * alpha) ≤ 1) ∧
        fl32 (0 * alpha) = 0 ∧ fl32 (top * alpha) = 1 ∧
        (source.type = CV_32FC3 → ∀ v : ℚ, fl32 v = v → fl32 (v * alpha) = v) := by
  obtain ⟨ia, hia, _, hr, hc, hd, hb, _⟩ := InputAssembler_new_spec lib desc source alpha hs ha
  have hpix : ∀ i j, i < source.rows → j < source.cols →
      ia.mMatF.at? i j = some ((source.data i j).map fun v => fl32 (v * alpha)) := by
    intro i j hi hj
    unfold Mat.at?
    rw [hr, hc, if_pos ⟨hi, hj⟩, hd i j hi hj, hcs]
    rfl
  have hrange : ∀ top : ℚ, 0 ≤ alpha → fl32 (top * alpha) = 1 →
      ∀ v : ℚ, 0 ≤ v ∧ v ≤ top → 0 ≤ fl32 (v * alpha) ∧ fl32 (v * alpha) ≤ 1 := by
    rintro top hal htop v ⟨h0, h1⟩
    refine ⟨fl32_nonneg (mul_nonneg h0 hal), ?_⟩
    rw [← htop]
    exact fl32_mono (mul_nonneg h0 hal) (mul_le_mul_of_nonneg_right h1 hal)
  have hzero : fl32 (0 * alpha) = 0 := by rw [zero_mul, fl32_zero]
  have h8 : fl32 (255 * fl32 (1 / 255)) = 1 := by decide!
  have h16 : fl32 (65535 * fl32 (1 / 65535)) = 1 := by decide!
  have h32 : fl32 (1 * 1) = 1 := by decide!
  refine ⟨ia, hia, by rw [hb, hcs]; rfl, ?_⟩
  rcases formatAlpha_eq_some _ _ ha with ⟨ht, hal⟩ | ⟨ht, hal⟩ | ⟨ht, hal⟩
  · refine ⟨255, Or.inl ⟨ht, rfl, hal⟩, hpix, ?_, hzero, by rw [hal]; exact h8, ?_⟩
    · exact hrange 255 (by rw [hal]; exact fl32_nonneg (by norm_num)) (by rw [hal]; exact h8)
    · intro h; rw [ht] at h; exact absurd h (by decide)
  · refine ⟨65535, Or.inr (Or.inl ⟨ht, rfl, hal⟩), hpix, ?_, hzero, by rw [hal]; exact h16, ?_⟩
    · exact hrange 65535 (by rw [hal]; exact fl32_nonneg (by norm_num)) (by rw [hal]; exact h16)
    · intro h; rw [ht] at h; exact absurd h (by decide)
  · refine ⟨1, Or.inr (Or.inr ⟨ht, rfl, hal⟩), hpix, ?_, hzero, by rw [hal]; exact h32, ?_⟩
    · exact hrange 1 (by rw [hal]; norm_num) (by rw [hal]; exact h32)
    · intro _ v hv
      rw [hal, mul_one, hv]

/-- The amended C6 at a concrete input: the 8-bit image `wideImage` in the RGB
working space. -/
theorem C6_rgb_float_scaled_witness :
    ∃ ia, InputAssembler.new affineLib
        ⟨some wideImage, ETCS_RGB, sampleIpd, ⟨1, 1 / 2, 0⟩⟩ = .ok ia ∧
      ia.mBackground = ⟨1, 1 / 2, 0⟩ ∧
      ∃ top : ℚ,
        ((wideImage.type = CV_8UC3 ∧ top = 255 ∧ fl32 (1 / 255) = fl32 (1 / 255)) ∨
          (wideImage.type = CV_16UC3 ∧ top = 65535 ∧ fl32 (1 / 255) = fl32 (1 / 65535)) ∨
          (wideImage.type = CV_32FC3 ∧ top = 1 ∧ fl32 (1 / 255) = 1)) ∧
        (∀ i j, i < wideImage.rows → j < wideImage.cols →
          ia.mMatF.at? i j =
            some ((wideImage.data i j).map fun v => fl32 (v * fl32 (1 / 255)))) ∧
        (∀ v : ℚ, 0 ≤ v ∧ v ≤ top →
          0 ≤ fl32 (v * fl32 (1 / 255)) ∧ fl32 (v * fl32 (1 / 255)) ≤ 1) ∧
        fl32 (0 * fl32 (1 / 255)) = 0 ∧ fl32 (top * fl32 (1 / 255)) = 1 ∧
        (wideImage.type = CV_32FC3 → ∀ v : ℚ, fl32 v = v → fl32 (v * fl32 (1 / 255)) = v) :=
  C6_rgb_float_scaled affineLib ⟨some wideImage, ETCS_RGB, sampleIpd, ⟨1, 1 / 2, 0⟩⟩
    wideImage (fl32 (1 / 255)) rfl rfl rfl

/-- C7: when the input stage of `init` throws (the image cannot be loaded, or
the constructor rejects its source), the exception is a `runtime_error` with
one of the three messages of the input code, and `init` does exactly this:
the actions up to the throwing call, then `Error(what)` and `close()`. No
algorithm is built, nothing is analysed, no alpha is computed, no window is
shown, the loading is not attempted again, and the members and windows are as
before the call. -/
theorem C7_fatal_input_aborts_run (w : World) (app : Application) (e : Exception)
    (h : loadRgbMatFromFile w.imread "test.bmp" = .error e ∨
      ∃ imageMat, loadRgbMatFromFile w.imread "test.bmp" = .ok imageMat ∧
        InputAssembler.new w.lib (iaDesc imageMat) = .error e) :
    ∃ msg, e = .runtime_error msg ∧
      (msg = "Could not load image data." ∨ msg = "Null source mat" ∨
        msg = "Unknown format in input assember at line 42") ∧
      ((app.init w).trace = app.trace ++ [.Inform "Running", .restoreStateFromFile,
          .setSceneRadius, .Inform "Processing input", .loadRgbMatFromFile "test.bmp",
          .Error msg, .close] ∨
        (app.init w).trace = app.trace ++ [.Inform "Running", .restoreStateFromFile,
          .setSceneRadius, .Inform "Processing input", .loadRgbMatFromFile "test.bmp",
          .newInputAssembler, .Error msg, .close]) ∧
      (app.init w).mInputAssembler = app.mInputAssembler ∧
      (app.init w).mAlgorithm = app.mAlgorithm ∧
      (app.init w).windowAlpha = app.windowAlpha ∧
      (app.init w).windowAF = app.windowAF := by
  rcases h with hl | ⟨imageMat, hl, hn⟩
  · have he : e = .runtime_error "Could not load image data." := by
      unfold loadRgbMatFromFile at hl
      cases hi : w.imread "test.bmp" with
      | none => rw [hi] at hl; exact (Except.error.inj hl).symm
      | some mat => rw [hi] at hl; cases hl
    subst he
    refine ⟨"Could not load image data.", rfl, Or.inl rfl, Or.inl ?_, ?_, ?_, ?_, ?_⟩ <;>
      simp [Application.init, Application.initBody, hl, Application.log]
  · have he : (e = .runtime_error "Null source mat") ∨
        (e = .runtime_error "Unknown format in input assember at line 42") := by
      rcases InputAssembler_new_error w.lib (iaDesc imageMat) e hn with ⟨_, h⟩ | ⟨s, _, _, h⟩
      · exact Or.inl h
      · right
        rw [h]
        decide
    rcases he with he | he
    · subst he
      refine ⟨"Null source mat", rfl, Or.inr (Or.inl rfl), Or.inr ?_, ?_, ?_, ?_, ?_⟩ <;>
        simp [Application.init, Application.initBody, hl, hn, Application.log]
    · subst he
      refine ⟨"Unknown format in input assember at line 42", rfl, Or.inr (Or.inr rfl),
        Or.inr ?_, ?_, ?_, ?_, ?_⟩ <;>
        simp [Application.init, Application.initBody, hl, hn, Application.log]

/-- C7 at two concrete worlds: `test.bmp` unreadable (the loader throws), and
`test.bmp` decoded to a single-channel image (the constructor throws). -/
theorem C7_fatal_input_aborts_run_witness :
    (∃ msg, Exception.runtime_error "Could not load image data." = .runtime_error msg ∧
      (msg = "Could not load image data." ∨ msg = "Null source mat" ∨
        msg = "Unknown format in input assember at line 42") ∧
      ((Application.new.init missingFileWorld).trace = Application.new.trace ++
          [.Inform "Running", .restoreStateFromFile,
          .setSceneRadius, .Inform "Processing input", .loadRgbMatFromFile "test.bmp",
          .Error msg, .close] ∨
        (Application.new.init missingFileWorld).trace = Application.new.trace ++
          [.Inform "Running", .restoreStateFromFile,
          .setSceneRadius, .Inform "Processing input", .loadRgbMatFromFile "test.bmp",
          .newInputAssembler, .Error msg, .close]) ∧
      (Application.new.init missingFileWorld).mInputAssembler = Application.new.mInputAssembler ∧
      (Application.new.init missingFileWorld).mAlgorithm = Application.new.mAlgorithm ∧
      (Application.new.init missingFileWorld).windowAlpha = Application.new.windowAlpha ∧
      (Application.new.init missingFileWorld).windowAF = Application.new.windowAF) ∧
    (∃ msg, Exception.runtime_error unknownFormatMessage = .runtime_error msg ∧
      (msg = "Could not load image data." ∨ msg = "Null source mat" ∨
        msg = "Unknown format in input assember at line 42") ∧
      ((Application.new.init greyFileWorld).trace = Application.new.trace ++
          [.Inform "Running", .restoreStateFromFile,
          .setSceneRadius, .Inform "Processing input", .loadRgbMatFromFile "test.bmp",
          .Error msg, .close] ∨
        (Application.new.init greyFileWorld).trace = Application.new.trace ++
          [.Inform "Running", .restoreStateFromFile,
          .setSceneRadius, .Inform "Processing input", .loadRgbMatFromFile "test.bmp",
          .newInputAssembler, .Error msg, .close]) ∧
      (Application.new.init greyFileWorld).mInputAssembler = Application.new.mInputAssembler ∧
      (Application.new.init greyFileWorld).mAlgorithm = Application.new.mAlgorithm ∧
      (Application.new.init greyFileWorld).windowAlpha = Application.new.windowAlpha ∧
      (Application.new.init greyFileWorld).windowAF = Application.new.windowAF) :=
  ⟨C7_fatal_input_aborts_run missingFileWorld Application.new _ (Or.inl rfl),
    C7_fatal_input_aborts_run greyFileWorld Application.new _
      (Or.inr ⟨(onePixel (CV_MAKETYPE CV_8U 1) ⟨7, 7, 7⟩).convertTo CV_8UC3 1, rfl, rfl⟩)⟩

/-- C8 as stated fails: the pixel `(255, 255, 255)` at `alpha = 0.001f`. Its
green channel, blended with the replacement green `255` in `float`, comes out
as `16711681/65536 = 255 + 2^-16`, above both channel values and outside
`[0,255]`. -/
theorem C8_between_counterexample :
    (¬ ∀ (o : Vec3) (a : ℚ), 0 ≤ a → a ≤ 1 → o.All (fun v => 0 ≤ v ∧ v ≤ 255) →
        (min o.y 255 ≤ (compositeColour o a).y ∧ (compositeColour o a).y ≤ max o.y 255) ∧
        (compositeColour o a).All (fun v => 0 ≤ v ∧ v ≤ 255)) ∧
    (compositeColour ⟨255, 255, 255⟩ (fl32 (1 / 1000))).y = 16711681 / 65536 := by
  have hy : (compositeColour ⟨255, 255, 255⟩ (fl32 (1 / 1000))).y = 16711681 / 65536 := by
    decide!
  refine ⟨fun h => ?_, hy⟩
  have h1 := (h ⟨255, 255, 255⟩ (fl32 (1 / 1000)) (fl32_nonneg (by norm_num)) (by decide!)
    ⟨by norm_num, by norm_num, by norm_num⟩).2.2.1.2
  rw [hy] at h1
  norm_num at h1

/-- C8 (amended): when every stage of `init` succeeds, window "Alpha" shows
the alpha map and window "AF" shows the loaded image with every pixel replaced
by `original*alpha + (0,255,0)*(1-alpha)`, evaluated in `float` and stored back
through `saturate_cast<uchar>`, `alpha` being the alpha map at that pixel. The
blend is the original at `alpha = 1` (foreground kept) and `(0,255,0)` at
`alpha = 0` (background replaced). For `alpha` in `[0,1]` the channels whose
replacement is `0` lie between `0` and the original channel; the green channel
is only as close to the range of its two values as `float` rounding leaves it;
the value stored back is always in `[0,255]`, and an 8-bit pixel is stored back
unchanged at `alpha = 1` and as `(0,255,0)` at `alpha = 0`. -/
theorem C8_composite_float_blend (w : World) (app : Application) (imageMat : Mat)
    (ia : InputAssembler) (result : AlphaMap)
    (hl : loadRgbMatFromFile w.imread "test.bmp" = .ok imageMat)
    (hn : InputAssembler.new w.lib (iaDesc imageMat) = .ok ia)
    (han : w.analyse ⟨⟨16, 8, fl32 (11 / 10), ia.mBackground⟩, some ia⟩ = .ok ())
    (hca : w.computeAlphas ⟨⟨16, 8, fl32 (11 / 10), ia.mBackground⟩, some ia⟩ = .ok result) :
    ((app.init w).windowAlpha = some result ∧
      ∃ af, (app.init w).windowAF = some af ∧
        af.rows = imageMat.rows ∧ af.cols = imageMat.cols ∧
        ∀ r c, af.at? r c = (imageMat.at? r c).map fun original =>
          (compositeColour original (result r c)).map (saturate_cast CV_8U)) ∧
    (∀ o a, compositeColour o a =
      ⟨fl32 (fl32 (o.x * a) + fl32 (0 * fl32 (1 - a))),
        fl32 (fl32 (o.y * a) + fl32 (255 * fl32 (1 - a))),
        fl32 (fl32 (o.z * a) + fl32 (0 * fl32 (1 - a)))⟩) ∧
    (∀ o, o.map fl32 = o → compositeColour o 1 = o) ∧
    (∀ o, compositeColour o 0 = ⟨0, 255, 0⟩) ∧
    (∀ o a, 0 ≤ a → a ≤ 1 → o.map fl32 = o → 0 ≤ o.x → 0 ≤ o.z →
      (0 ≤ (compositeColour o a).x ∧ (compositeColour o a).x ≤ o.x) ∧
      (0 ≤ (compositeColour o a).z ∧ (compositeColour o a).z ≤ o.z)) ∧
    (∀ o a, ((compositeColour o a).map (saturate_cast CV_8U)).All
      (fun v => 0 ≤ v ∧ v ≤ 255)) ∧
    (∀ x y z : ℕ, x ≤ 255 → y ≤ 255 → z ≤ 255 →
      (compositeColour ⟨x, y, z⟩ 1).map (saturate_cast CV_8U) = ⟨x, y, z⟩ ∧
      (compositeColour ⟨x, y, z⟩ 0).map (saturate_cast CV_8U) = ⟨0, 255, 0⟩) := by
  have hform : ∀ o a, compositeColour o a =
      ⟨fl32 (fl32 (o.x * a) + fl32 (0 * fl32 (1 - a))),
        fl32 (fl32 (o.y * a) + fl32 (255 * fl32 (1 - a))),
        fl32 (fl32 (o.z * a) + fl32 (0 * fl32 (1 - a)))⟩ := by
    intro o a
    rfl
  have h255 : fl32 255 = 255 := by
    have := fl32_natCast 255 (by norm_num)
    simpa using this
  have h1 : fl32 1 = 1 := by
    have := fl32_natCast 1 (by norm_num)
    simpa using this
  have hone : ∀ o : Vec3, o.map fl32 = o → compositeColour o 1 = o := by
    intro o ho
    obtain ⟨x, y, z⟩ := o
    simp only [Vec3.map, Vec3.mk.injEq] at ho
    obtain ⟨hx, hy, hz⟩ := ho
    rw [hform]
    simp [fl32_zero, hx, hy, hz]
  have hzero : ∀ o : Vec3, compositeColour o 0 = ⟨0, 255, 0⟩ := by
    intro o
    rw [hform]
    simp [fl32_zero, h1, h255]
  have hchan : ∀ v a : ℚ, 0 ≤ a → a ≤ 1 → fl32 v = v → 0 ≤ v →
      0 ≤ fl32 (fl32 (v * a) + fl32 (0 * fl32 (1 - a))) ∧
        fl32 (fl32 (v * a) + fl32 (0 * fl32 (1 - a))) ≤ v := by
    intro v a ha0 ha1 hv hv0
    rw [zero_mul, fl32_zero, add_zero]
    have hlo : 0 ≤ fl32 (v * a) := fl32_nonneg (mul_nonneg hv0 ha0)
    have hhi : fl32 (v * a) ≤ v := by
      have := fl32_mono (mul_nonneg hv0 ha0) (mul_le_of_le_one_right hv0 ha1)
      rwa [hv] at this
    refine ⟨fl32_nonneg hlo, ?_⟩
    have := fl32_mono hlo hhi
    rwa [hv] at this
  refine ⟨?_, hform, hone, hzero, ?_, ?_, ?_⟩
  · obtain ⟨ha, af, haf, hr, hc, hd⟩ := init_shows_composite w app imageMat ia result hl hn han hca
    exact ⟨ha, af, haf, hr, hc, hd⟩
  · intro o a ha0 ha1 ho hx hz
    obtain ⟨x, y, z⟩ := o
    simp only [Vec3.map, Vec3.mk.injEq] at ho
    rw [hform]
    exact ⟨hchan x a ha0 ha1 ho.1 hx, hchan z a ha0 ha1 ho.2.2 hz⟩
  · intro o a
    exact ⟨saturate_cast_uchar_range _, saturate_cast_uchar_range _, saturate_cast_uchar_range _⟩
  · intro x y z hx hy hz
    have fx : fl32 (x : ℚ) = x := fl32_natCast x (by omega)
    have fy : fl32 (y : ℚ) = y := fl32_natCast y (by omega)
    have fz : fl32 (z : ℚ) = z := fl32_natCast z (by omega)
    rw [hone ⟨x, y, z⟩ (by simp [Vec3.map, fx, fy, fz]), hzero]
    have h0 : saturate_cast CV_8U 0 = 0 := by
      have := saturate_cast_uchar_natCast 0 (by norm_num)
      simpa using this
    have h255' : saturate_cast CV_8U 255 = 255 := by
      have := saturate_cast_uchar_natCast 255 (by norm_num)
      simpa using this
    simp [Vec3.map, saturate_cast_uchar_natCast, hx, hy, hz, h0, h255']

/-- The amended C8 at a concrete world: `test.bmp` decodes to the 2 x 3 image
`wideImage`, every stage succeeds and the alpha map is `0.5f` everywhere. -/
theorem C8_composite_float_blend_witness :
    (Application.new.init halfAlphaWorld).windowAlpha = some (fun _ _ => 1 / 2) ∧
    ∃ af, (Application.new.init halfAlphaWorld).windowAF = some af ∧
      af.rows = 2 ∧ af.cols = 3 ∧
      ∀ r c, af.at? r c = ((wideImage.convertTo CV_8UC3 1).at? r c).map fun original =>
        (compositeColour original (1 / 2)).map (saturate_cast CV_8U) :=
  (C8_composite_float_blend halfAlphaWorld Application.new
    (wideImage.convertTo CV_8UC3 1) halfAlphaAssembler (fun _ _ => 1 / 2) rfl rfl rfl rfl).1

/-- C9, the code at the failing input: after `init` in a world where `test.bmp`
cannot be read (and likewise before any `init`, and after an `init` whose
constructor threw) `mInputAssembler` is null, and `draw` reads
`mInputAssembler->points()` through it. -/
theorem C9_draw_dereferences_null_input_assembler :
    (Application.new.init missingFileWorld).mInputAssembler = none ∧
    (Application.new.init missingFileWorld).draw affineLib = .nullDereference ∧
    (Application.new.init greyFileWorld).draw affineLib = .nullDereference ∧
    Application.new.draw affineLib = .nullDereference ∧
    ∀ (w : World) (lib : Collaborators), w.imread "test.bmp" = none →
      (Application.new.init w).draw lib = .nullDereference := by
  refine ⟨rfl, rfl, rfl, rfl, fun w lib hw => ?_⟩
  simp [Application.init, Application.initBody, loadRgbMatFromFile, hw, Application.log,
    Application.draw, Application.new]

/-- C10: for a matrix of any shape, the index pairs `(x, y)` the HSV and Lab
loops hand to `mMatF.at(x, y)` are exactly the pixels (row `r < rows`, column
`c < cols`), none outside the matrix and none twice, `rows * cols` in all, and the loop (with the hue body, the Lab body, or any
other) completes with every pixel replaced by the body applied once to its old
value; outside the matrix `at?` still answers `none`. -/
theorem C10_normalisation_loops_visit_each_pixel_once (m : Mat) :
    (∀ r c, (r, c) ∈ normaliseIndices m ↔ r < m.rows ∧ c < m.cols) ∧
    (normaliseIndices m).Nodup ∧
    (normaliseIndices m).length = m.rows * m.cols ∧
    (∀ f : Vec3 → Vec3, ∃ m',
      forEachIndex (fun _ _ => f) (normaliseIndices m) m = .ok m' ∧
        m'.rows = m.rows ∧ m'.cols = m.cols ∧
        ∀ r c, m'.at? r c = (m.at? r c).map f) ∧
    (∃ m', forEachIndex (fun _ _ => normaliseHue) (normaliseIndices m) m = .ok m' ∧
      ∀ r c, m'.at? r c = (m.at? r c).map normaliseHue) ∧
    (∃ m', forEachIndex (fun _ _ => normaliseLab) (normaliseIndices m) m = .ok m' ∧
      ∀ r c, m'.at? r c = (m.at? r c).map normaliseLab) := by
  have key : ∀ f : Vec3 → Vec3, ∃ m',
      forEachIndex (fun _ _ => f) (normaliseIndices m) m = .ok m' ∧
        m'.rows = m.rows ∧ m'.cols = m.cols ∧
        ∀ r c, m'.at? r c = (m.at? r c).map f := by
    intro f
    obtain ⟨m', h, hr, hc, _, hd⟩ := normaliseLoop_spec f m
    refine ⟨m', h, hr, hc, fun r c => ?_⟩
    unfold Mat.at?
    rw [hr, hc, hd r c]
    by_cases hin : r < m.rows ∧ c < m.cols <;> simp [hin]
  refine ⟨fun r c => mem_normaliseIndices m (r, c), nodup_normaliseIndices m, ?_, key, ?_, ?_⟩
  · simp [normaliseIndices, List.length_flatMap, Function.comp_def, Nat.mul_comm]
  · obtain ⟨m', h, _, _, hd⟩ := key normaliseHue
    exact ⟨m', h, hd⟩
  · obtain ⟨m', h, _, _, hd⟩ := key normaliseLab
    exact ⟨m', h, hd⟩

end Primatte
